import Mathlib

/-
Verification development for the RavEngine ECS core: the component store
(ComponentStore.hpp), entity/world lifecycle (Entity.hpp, World.hpp,
World.cpp) and the per-frame task scheduler (World::TickECS).  C++ hash maps
and hash sets are embedded as key lists with bucket functions resp.
duplicate-free lists; machine pointers and type identifiers are natural
numbers; the std::chrono clock is embedded as integer ticks.
-/

namespace RavEngine

/-- Compile-time type identifier, ctti_t from CTTI.hpp. -/
abbrev TypeId := Nat

/-- Identity of one component reference (a Ref of Component compares and hashes
by object identity). -/
abbrev CompId := Nat

/-- Contents of one bucket, a phmap flat hash set of component references,
embedded as a duplicate-free list read with set semantics. -/
abbrev Bucket := List CompId

/-- Embedding of the ComponentStructure typedef in ComponentStore.hpp, a phmap
flat hash map from type identifier to a set of component references: the list
of keys present in the map together with the bucket contents for each key. -/
structure HMap where
  keys : List TypeId
  buckets : TypeId → Bucket

def HMap.empty : HMap := ⟨[], fun _ => []⟩

/-- map.contains k on the flat hash map: key presence, regardless of whether
the key holds an empty bucket. -/
def HMap.containsKey (m : HMap) (k : TypeId) : Bool := decide (k ∈ m.keys)

/-- Reading the bucket of key k: the empty set when the key is absent. -/
def HMap.getD (m : HMap) (k : TypeId) : Bucket := if k ∈ m.keys then m.buckets k else []

/-- Writing the bucket of key k through the subscript operator, which
default-inserts the key when it is absent. -/
def HMap.setB (m : HMap) (k : TypeId) (b : Bucket) : HMap :=
  ⟨if k ∈ m.keys then m.keys else m.keys ++ [k], fun x => if x = k then b else m.buckets x⟩

/-- Hash set insert on one bucket. -/
def bucketInsert (b : Bucket) (c : CompId) : Bucket := if c ∈ b then b else b ++ [c]

/-- map[k].insert(c). -/
def HMap.insertElem (m : HMap) (k : TypeId) (c : CompId) : HMap :=
  m.setB k (bucketInsert (m.getD k) c)

/-- map[k].erase(c): removes c from the bucket of k; the subscript operator
creates the key (with an empty bucket) when it is absent. -/
def HMap.eraseElem (m : HMap) (k : TypeId) (c : CompId) : HMap :=
  m.setB k ((m.getD k).filter (fun x => x ≠ c))

/-- Bulk insertion of every bucket of the other map into this one, as done
entry by entry in ComponentStore::Merge: the subscript operator touches the
key, then inserts the whole range of the other bucket. -/
def HMap.mergeFrom (m other : HMap) : HMap :=
  other.keys.foldl
    (fun acc k => (other.getD k).foldl (fun a c => a.insertElem k c) (acc.setB k (acc.getD k)))
    m

/-- Element-wise erasure of every bucket of the other map from this one, as
done in ComponentStore::Unmerge. -/
def HMap.unmergeFrom (m other : HMap) : HMap :=
  other.keys.foldl
    (fun acc k => (other.getD k).foldl (fun a c => a.eraseElem k c) acc)
    m

/-- Decidable bucket-wise disjointness of two maps: no component reference
appears in the same type bucket of both. -/
def HMap.disjointB (m other : HMap) : Bool :=
  m.keys.all (fun k => (m.getD k).all (fun c => decide (c ∉ other.getD k)))

/-- A concrete component type as the templates of ComponentStore.hpp see it:
its own type identifier CTTI of T together with the list of alternate (base)
type identifiers returned by T::GetQueryTypes(). -/
structure CompType where
  tid : TypeId
  alts : List TypeId
deriving DecidableEq

/-- State of a ComponentStore (ComponentStore.hpp lines 22 and 23): the
exact-type map `components` and the alternate-type map `componentsRedundant`. -/
structure ComponentStore where
  components : HMap
  componentsRedundant : HMap

def ComponentStore.empty : ComponentStore := ⟨HMap.empty, HMap.empty⟩

/-- AddComponent of T (ComponentStore.hpp lines 131 to 145), the store-local
part: insert the reference into components[CTTI of T] and into
componentsRedundant[alt] for every declared alternate type, then return the
same reference.  OnAddComponent is a no-op in the base class; propagation to a
live parent store is embedded separately in StoreCfg. -/
def ComponentStore.addComponent (s : ComponentStore) (T : CompType) (c : CompId) :
    CompId × ComponentStore :=
  (c,
   { components := s.components.insertElem T.tid c
     componentsRedundant := T.alts.foldl (fun m a => m.insertElem a c) s.componentsRedundant })

/-- RemoveComponent of T (ComponentStore.hpp lines 227 to 236): erase the
reference from components[CTTI of T] and from componentsRedundant[alt] for
every declared alternate type.  The parent store is not touched. -/
def ComponentStore.removeComponent (s : ComponentStore) (T : CompType) (c : CompId) :
    ComponentStore :=
  { components := s.components.eraseElem T.tid c
    componentsRedundant := T.alts.foldl (fun m a => m.eraseElem a c) s.componentsRedundant }

/-- GetComponentOfSubclass of T (ComponentStore.hpp lines 192 to 202), named
with Subtype here: the first element of componentsRedundant[CTTI of T], or the
thrown runtime error, embedded as none, when that bucket is empty. -/
def ComponentStore.getComponentOfSubtype (s : ComponentStore) (t : TypeId) : Option CompId :=
  match s.componentsRedundant.getD t with
  | [] => none
  | x :: _ => some x

/-- GetComponent of T (ComponentStore.hpp lines 152 to 163): the first element
of components[CTTI of T]; when that bucket is empty, fall back to the
alternate-type lookup. -/
def ComponentStore.getComponent (s : ComponentStore) (t : TypeId) : Option CompId :=
  match s.components.getD t with
  | [] => s.getComponentOfSubtype t
  | x :: _ => some x

/-- HasComponentOfSubclass of T (ComponentStore.hpp lines 179 to 183), named
with Subtype here: key presence of CTTI of T in componentsRedundant. -/
def ComponentStore.hasComponentOfSubtype (s : ComponentStore) (t : TypeId) : Bool :=
  s.componentsRedundant.containsKey t

/-- HasComponentOfType of T (ComponentStore.hpp lines 169 to 173): key
presence in components, or else the alternate-type key presence. -/
def ComponentStore.hasComponentOfType (s : ComponentStore) (t : TypeId) : Bool :=
  s.components.containsKey t || s.hasComponentOfSubtype t

/-- ComponentStore::Merge (ComponentStore.hpp lines 242 to 254): bulk-insert
every bucket of the other store into this one, in both maps.  OnAddComponent
fires per merged component; it is a no-op for a plain store. -/
def ComponentStore.storeMerge (s other : ComponentStore) : ComponentStore :=
  { components := s.components.mergeFrom other.components
    componentsRedundant := s.componentsRedundant.mergeFrom other.componentsRedundant }

/-- ComponentStore::Unmerge (ComponentStore.hpp lines 260 to 273): erase from
this store, in both maps, every component present in the other store. -/
def ComponentStore.storeUnmerge (s other : ComponentStore) : ComponentStore :=
  { components := s.components.unmergeFrom other.components
    componentsRedundant := s.componentsRedundant.unmergeFrom other.componentsRedundant }

/-- Bucket-wise disjointness of two stores, on both maps. -/
def storeDisjoint (s other : ComponentStore) : Bool :=
  HMap.disjointB s.components other.components &&
  HMap.disjointB s.componentsRedundant other.componentsRedundant

/-- A child store together with its optional parent store (ComponentStore.hpp
line 20: in entities the parent is the World; none embeds an expired weak
reference) and the log of component references for which the parent's
OnAddComponent hook has fired. -/
structure StoreCfg where
  child : ComponentStore
  parent : Option ComponentStore
  parentEvents : List CompId

/-- AddComponent on a store that may have a parent (ComponentStore.hpp lines
131 to 145): after the local insertion and the local OnAddComponent, a live
parent receives the same AddComponent call, which fires the parent's
OnAddComponent hook. -/
def StoreCfg.addComponent (cfg : StoreCfg) (T : CompType) (c : CompId) : CompId × StoreCfg :=
  (c,
   { child := (cfg.child.addComponent T c).2
     parent :=
       match cfg.parent with
       | some p => some ((p.addComponent T c).2)
       | none => none
     parentEvents :=
       match cfg.parent with
       | some _ => cfg.parentEvents ++ [c]
       | none => cfg.parentEvents })

/-- RemoveComponent on a store that may have a parent (ComponentStore.hpp
lines 227 to 236): only the local store is modified; there is no parent
propagation and no parent hook. -/
def StoreCfg.removeComponent (cfg : StoreCfg) (T : CompType) (c : CompId) : StoreCfg :=
  { cfg with child := cfg.child.removeComponent T c }

/-- One add or remove of a component reference against a store; the Bool is
true for AddComponent.  The concrete type of each reference is fixed by the
typing function passed to applyOps, mirroring that the template parameter T of
AddComponent and RemoveComponent is the static type of the Ref argument. -/
abbrev StoreOp := Bool × CompId

def applyOp (cty : CompId → CompType) (s : ComponentStore) (op : StoreOp) : ComponentStore :=
  if op.1 then (s.addComponent (cty op.2) op.2).2 else s.removeComponent (cty op.2) op.2

def applyOps (cty : CompId → CompType) (ops : List StoreOp) (s : ComponentStore) :
    ComponentStore :=
  ops.foldl (applyOp cty) s

/-- Per-entity state visible to World.cpp: the weak world back-reference
(Entity.hpp line 33, none embeds a null or expired WeakRef), the entity's own
component store, the entities referenced by its ChildEntityComponents, and
whether its store's parent pointer is linked to the world.
Modelled from the spec: ChildEntityComponent is not under src, only its
callers in World::Spawn and World::Destroy are; per spec section 4.3 it makes
Spawn and Destroy recurse into child entities, so each entity here directly
records the ids of the child entities those components reference. -/
structure EntityData where
  world : Option Nat
  store : ComponentStore
  children : List Nat
  parentLinked : Bool

/-- World state (World.hpp lines 31 to 33): the Entities set, the world's own
merged component store (World derives from ComponentStore), and the two
pending queues, which are declared in the source but never written or read. -/
structure WorldState where
  entities : List Nat
  store : ComponentStore
  pendingSpawn : List Nat
  pendingDestruction : List Nat

/-- The world together with the state of every entity, keyed by entity id. -/
structure Config where
  world : WorldState
  ents : Nat → EntityData

/-- Entities.insert e on the hash set. -/
def entInsert (l : List Nat) (e : Nat) : List Nat := if e ∈ l then l else l ++ [e]

/-- Entities.erase e on the hash set. -/
def entErase (l : List Nat) (e : Nat) : List Nat := l.filter (fun x => x ≠ e)

def Config.setEnt (cfg : Config) (e : Nat) (d : EntityData) : Config :=
  { cfg with ents := fun x => if x = e then d else cfg.ents x }

/-- The non-recursive body of World::Spawn (World.cpp lines 50 to 73) for an
entity that passed the guard: insert into Entities, set the world
back-reference, run Start (a default no-op), merge the entity's components
into the world store, and link the entity's store parent to the world. -/
def spawnBody (cfg : Config) (e : Nat) : Config :=
  let d := cfg.ents e
  let cfg1 : Config :=
    { world :=
        { cfg.world with
          entities := entInsert cfg.world.entities e
          store := cfg.world.store.storeMerge d.store }
      ents := cfg.ents }
  cfg1.setEnt e { d with world := some 0, parentLinked := true }

/-- The non-recursive body of World::Destroy (World.cpp lines 80 to 102) for a
spawned entity: clear the world back-reference, run Stop (a default no-op),
unmerge the entity's components from the world store, unlink the store parent,
and erase from Entities. -/
def destroyBody (cfg : Config) (e : Nat) : Config :=
  let d := cfg.ents e
  let cfg1 : Config :=
    { world :=
        { cfg.world with
          entities := entErase cfg.world.entities e
          store := cfg.world.store.storeUnmerge d.store }
      ents := cfg.ents }
  cfg1.setEnt e { d with world := none, parentLinked := false }

/-- World::Spawn (World.cpp lines 50 to 73).  The call fails at once when the
entity already has a world; on success the body runs and Spawn recurses into
the child entities.  The fuel argument bounds the recursion depth, which the
source leaves unbounded. -/
def spawnAux : Nat → Config → Nat → Config × Bool
  | 0, cfg, e =>
    if ((cfg.ents e).world).isSome then (cfg, false)
    else (spawnBody cfg e, true)
  | Nat.succ f, cfg, e =>
    if ((cfg.ents e).world).isSome then (cfg, false)
    else
      (((cfg.ents e).children).foldl (fun acc c => (spawnAux f acc c).1) (spawnBody cfg e), true)

/-- World::Destroy (World.cpp lines 80 to 102).  The call fails at once when
the entity has no world; on success the body runs and Destroy recurses into
the child entities. -/
def destroyAux : Nat → Config → Nat → Config × Bool
  | 0, cfg, e =>
    if ((cfg.ents e).world).isSome then (destroyBody cfg e, true)
    else (cfg, false)
  | Nat.succ f, cfg, e =>
    if ((cfg.ents e).world).isSome then
      (((cfg.ents e).children).foldl (fun acc c => (destroyAux f acc c).1) (destroyBody cfg e),
       true)
    else (cfg, false)

/-- Entity::IsInWorld (Entity.hpp lines 69 to 71): returns worldptr.isNull(),
true exactly when the weak world back-reference is null. -/
def entityIsInWorld (d : EntityData) : Bool := (d.world).isNone

/-- Entity::SetWorld (Entity.hpp lines 60 to 62): overwrite the weak world
back-reference. -/
def entitySetWorld (d : EntityData) (w : Option Nat) : EntityData := { d with world := w }

/-- One System Registry entry as World::TickECS consumes it: the query type
identifiers (System::QueryTypes), and the declared ordering sets
(MustRunBefore and MustRunAfter) as lists of system type identifiers. -/
structure SystemEntry where
  queries : List TypeId
  runBefore : List TypeId
  runAfter : List TypeId
deriving DecidableEq

/-- A timed-tick registry entry as the loop in World::TickECS lines 212 to 219
reads it: the system, its interval and its last-run timestamp, with the
std::chrono clock embedded as integer ticks. -/
structure TimedEntry where
  system : SystemEntry
  interval : Int
  last_timestamp : Int
deriving DecidableEq

/-- One value of the graphs hash map in World::TickECS (the systaskpair): the
tf::Task handle most recently assigned for this system id, as a task number,
and the system entry it belongs to. -/
structure GEntry where
  task : Nat
  sys : SystemEntry
deriving DecidableEq

/-- State of the frame's task graph under construction: the next fresh task
number, the descriptors of the parallel-for tasks created so far as
(task number, system id, query type), the graphs map, the precedence edges
(a, b) meaning task a completes before task b starts, and the solver task when
physics is active. -/
structure GraphState where
  nextTask : Nat
  tasks : List (Nat × TypeId × TypeId)
  graphs : List (TypeId × GEntry)
  edges : List (Nat × Nat)
  physicsTask : Option Nat
deriving DecidableEq

def GraphState.initial : GraphState := ⟨0, [], [], [], none⟩

/-- graphs[ID] = v on the hash map: replace the binding when the key exists,
otherwise insert it. -/
def graphsPut (g : List (TypeId × GEntry)) (k : TypeId) (v : GEntry) : List (TypeId × GEntry) :=
  if g.any (fun p => p.1 == k) then g.map (fun p => if p.1 = k then (k, v) else p)
  else g ++ [(k, v)]

/-- graphs.find(id) on the hash map. -/
def graphsFind (g : List (TypeId × GEntry)) (k : TypeId) : Option GEntry :=
  (g.find? (fun p => p.1 == k)).map (fun p => p.2)

/-- add_system_to_tick in World::TickECS (World.cpp lines 180 to 205): one
parallel for-each task per query type of the system, each assigned into
graphs[ID], so the map retains only the task created for the last query
type. -/
def addSystemToTick (sys : SystemEntry) (id : TypeId) (st : GraphState) : GraphState :=
  sys.queries.foldl
    (fun acc q =>
      { acc with
        nextTask := acc.nextTask + 1
        tasks := acc.tasks ++ [(acc.nextTask, id, q)]
        graphs := graphsPut acc.graphs id ⟨acc.nextTask, sys⟩ })
    st

/-- The always-tick loop in World::TickECS (World.cpp lines 208 to 210). -/
def alwaysPhase (always : List (TypeId × SystemEntry)) (st : GraphState) : GraphState :=
  always.foldl (fun acc p => addSystemToTick p.2 p.1 acc) st

/-- The timed-tick loop in World::TickECS (World.cpp lines 212 to 219): a
timed system is turned into tasks when now minus its last timestamp exceeds
its interval, and in that case its last timestamp is set to now at once,
during graph construction. -/
def timedPhase (now : Int) :
    List (TypeId × TimedEntry) → GraphState → List (TypeId × TimedEntry) × GraphState
  | [], st => ([], st)
  | (id, te) :: rest, st =>
    if now - te.last_timestamp > te.interval then
      let st1 := addSystemToTick te.system id st
      let r := timedPhase now rest st1
      ((id, { te with last_timestamp := now }) :: r.1, r.2)
    else
      let r := timedPhase now rest st
      ((id, te) :: r.1, r.2)

/-- The fixed type identifier CTTI of PhysicsLinkSystemWrite. -/
def physicsWriteId : TypeId := 1001

/-- The fixed type identifier CTTI of PhysicsLinkSystemRead. -/
def physicsReadId : TypeId := 1002

/-- The physics wiring in World::TickECS (World.cpp lines 330 to 337): when
physics is active, a solver task running Solver.Tick is emplaced; it precedes
the task of graphs[CTTI of PhysicsLinkSystemRead] and succeeds the task of
graphs[CTTI of PhysicsLinkSystemWrite].  When a lookup fails the source
subscripts a default-inserted entry and calls precede on an empty tf::Task
handle, which taskflow leaves undefined; the embedding adds no edge in that
corner. -/
def physicsPhase (physicsActive : Bool) (st : GraphState) : GraphState :=
  if physicsActive then
    let r := st.nextTask
    let st1 := { st with nextTask := r + 1, physicsTask := some r }
    let st2 :=
      match graphsFind st1.graphs physicsReadId with
      | some g => { st1 with edges := (r, g.task) :: st1.edges }
      | none => st1
    match graphsFind st2.graphs physicsWriteId with
    | some g => { st2 with edges := (g.task, r) :: st2.edges }
    | none => st2
  else st

/-- One iteration of the dependency-wiring loop in World::TickECS (World.cpp
lines 339 to 361) for the graphs entry p: an edge from p's task to the task of
every included system named in MustRunBefore, and an edge to p's task from the
task of every included system named in MustRunAfter; identifiers with no
graphs entry are skipped. -/
def wireOne (g : List (TypeId × GEntry)) (es : List (Nat × Nat)) (p : TypeId × GEntry) :
    List (Nat × Nat) :=
  let es1 := p.2.sys.runBefore.foldl
    (fun acc x =>
      match graphsFind g x with
      | some gx => (p.2.task, gx.task) :: acc
      | none => acc)
    es
  p.2.sys.runAfter.foldl
    (fun acc x =>
      match graphsFind g x with
      | some gx => (gx.task, p.2.task) :: acc
      | none => acc)
    es1

/-- The dependency-wiring loop over every graphs entry. -/
def wireDeps (g : List (TypeId × GEntry)) (es : List (Nat × Nat)) : List (Nat × Nat) :=
  g.foldl (wireOne g) es

/-- Result of one TickECS graph construction: the finished graph state and the
timed registry with its updated timestamps.  Execution of the graph follows
construction and alters neither. -/
structure TickResult where
  graph : GraphState
  timedOut : List (TypeId × TimedEntry)
deriving DecidableEq

/-- World::TickECS (World.cpp lines 166 to 367), restricted to the scheduling
work: the always-tick loop, the timed-tick loop, the physics wiring and the
dependency wiring, built fresh from an empty graph.  The render-data
collection tasks guarded by isRendering touch no system ordering state and are
out of scope here. -/
def tickECS (always : List (TypeId × SystemEntry)) (timed : List (TypeId × TimedEntry))
    (now : Int) (physicsActive : Bool) : TickResult :=
  let st1 := alwaysPhase always GraphState.initial
  let tp := timedPhase now timed st1
  let st3 := physicsPhase physicsActive tp.2
  ⟨{ st3 with edges := wireDeps st3.graphs st3.edges }, tp.1⟩

/-- The graph state of a frame after the always, timed and physics phases,
right before the dependency-wiring loop runs. -/
def tickStage3 (always : List (TypeId × SystemEntry)) (timed : List (TypeId × TimedEntry))
    (now : Int) (physicsActive : Bool) : GraphState :=
  physicsPhase physicsActive (timedPhase now timed (alwaysPhase always GraphState.initial)).2

/-- The inclusion condition of the timed-tick loop, read off the entry at the
start of the frame. -/
def timedCond (now : Int) (p : TypeId × TimedEntry) : Bool :=
  decide (now - p.2.last_timestamp > p.2.interval)

/-- Effect of one frame on one timed registry entry: the last timestamp
becomes now exactly when the entry was included. -/
def timedUpdate (now : Int) (p : TypeId × TimedEntry) : TypeId × TimedEntry :=
  if now - p.2.last_timestamp > p.2.interval then (p.1, { p.2 with last_timestamp := now }) else p

/-- Store symmetry invariant: a component reference sits in the exact bucket
of its concrete type exactly when it sits in the redundant bucket of each of
its declared alternate types. -/
def R2Inv (cty : CompId → CompType) (s : ComponentStore) : Prop :=
  ∀ c a, a ∈ (cty c).alts →
    (c ∈ s.components.getD (cty c).tid ↔ c ∈ s.componentsRedundant.getD a)

/-- A store holding one component of a type with no alternate types, from
which that component has been removed again. -/
def c4store : ComponentStore :=
  ((ComponentStore.empty.addComponent ⟨0, []⟩ 5).2).removeComponent ⟨0, []⟩ 5

/-- A world store holding component 7 under type 0. -/
def c8w : ComponentStore := (ComponentStore.empty.addComponent ⟨0, []⟩ 7).2

/-- An entity store disjoint from c8w. -/
def c8e : ComponentStore := (ComponentStore.empty.addComponent ⟨1, [2]⟩ 9).2

/-- A config whose entities are all unspawned, with no components and no
children. -/
def cfgW : Config :=
  ⟨⟨[], ComponentStore.empty, [], []⟩, fun _ => ⟨none, ComponentStore.empty, [], false⟩⟩

/-- A config in which entity 0 is spawned and registered in Entities. -/
def cfgD : Config :=
  ⟨⟨[0], ComponentStore.empty, [], []⟩, fun _ => ⟨some 0, ComponentStore.empty, [], false⟩⟩

/-- A system with two query types that must run before system 20. -/
def c5sysS : SystemEntry := ⟨[1, 2], [20], []⟩

/-- A single-query system with no declared ordering. -/
def c5sysX : SystemEntry := ⟨[3], [], []⟩

def c5always : List (TypeId × SystemEntry) := [(10, c5sysS), (20, c5sysX)]

/-- The physics write-link system: a single query type, no declared
ordering (System.cpp line 20). -/
def c6write : SystemEntry := ⟨[5], [], []⟩

/-- The physics read-link system with a single query type. -/
def c6read : SystemEntry := ⟨[6], [], []⟩

def c6always : List (TypeId × SystemEntry) :=
  [(physicsWriteId, c6write), (physicsReadId, c6read)]

theorem HMap.getD_setB_self (m : HMap) (k : TypeId) (b : Bucket) : (m.setB k b).getD k = b := by
  unfold HMap.setB HMap.getD
  by_cases h : k ∈ m.keys <;> simp [h]

theorem HMap.getD_setB_ne (m : HMap) {k k' : TypeId} (b : Bucket) (h : k' ≠ k) :
    (m.setB k b).getD k' = m.getD k' := by
  unfold HMap.setB HMap.getD
  by_cases hm : k ∈ m.keys <;> simp [hm, h, List.mem_append]

theorem mem_bucketInsert {b : Bucket} {c x : CompId} :
    x ∈ bucketInsert b c ↔ x = c ∨ x ∈ b := by
  unfold bucketInsert
  by_cases h : c ∈ b
  · rw [if_pos h]
    constructor
    · intro hx; exact Or.inr hx
    · intro hx
      cases hx with
      | inl he => exact he ▸ h
      | inr hm => exact hm
  · rw [if_neg h]
    simp [List.mem_append, or_comm]

theorem mem_getD_insertElem {m : HMap} {k k' : TypeId} {c x : CompId} :
    x ∈ (m.insertElem k c).getD k' ↔ (x = c ∧ k' = k) ∨ x ∈ m.getD k' := by
  unfold HMap.insertElem
  by_cases hk : k' = k
  · subst hk
    rw [HMap.getD_setB_self, mem_bucketInsert]
    simp
  · rw [HMap.getD_setB_ne _ _ hk]
    simp [hk]

theorem mem_getD_eraseElem {m : HMap} {k k' : TypeId} {c x : CompId} :
    x ∈ (m.eraseElem k c).getD k' ↔ x ∈ m.getD k' ∧ ¬(x = c ∧ k' = k) := by
  unfold HMap.eraseElem
  by_cases hk : k' = k
  · subst hk
    rw [HMap.getD_setB_self]
    simp [List.mem_filter]
  · rw [HMap.getD_setB_ne _ _ hk]
    simp [hk]

theorem mem_getD_foldl_insertElem {c x : CompId} {k : TypeId} :
    ∀ (alts : List TypeId) (m : HMap),
      x ∈ (alts.foldl (fun m a => m.insertElem a c) m).getD k ↔
        (x = c ∧ k ∈ alts) ∨ x ∈ m.getD k := by
  intro alts
  induction alts with
  | nil => intro m; simp
  | cons a rest ih =>
    intro m
    rw [List.foldl_cons, ih, mem_getD_insertElem]
    simp only [List.mem_cons]
    tauto

theorem mem_getD_foldl_eraseElem {c x : CompId} {k : TypeId} :
    ∀ (alts : List TypeId) (m : HMap),
      x ∈ (alts.foldl (fun m a => m.eraseElem a c) m).getD k ↔
        x ∈ m.getD k ∧ ¬(x = c ∧ k ∈ alts) := by
  intro alts
  induction alts with
  | nil => intro m; simp
  | cons a rest ih =>
    intro m
    rw [List.foldl_cons, ih, mem_getD_eraseElem]
    simp only [List.mem_cons]
    tauto

theorem mem_getD_foldl_insert_bucket {k k' : TypeId} {x : CompId} :
    ∀ (b : Bucket) (m : HMap),
      x ∈ (b.foldl (fun a c => a.insertElem k c) m).getD k' ↔
        (k' = k ∧ x ∈ b) ∨ x ∈ m.getD k' := by
  intro b
  induction b with
  | nil => intro m; simp
  | cons c rest ih =>
    intro m
    rw [List.foldl_cons, ih, mem_getD_insertElem]
    simp only [List.mem_cons]
    tauto

theorem mem_getD_foldl_erase_bucket {k k' : TypeId} {x : CompId} :
    ∀ (b : Bucket) (m : HMap),
      x ∈ (b.foldl (fun a c => a.eraseElem k c) m).getD k' ↔
        x ∈ m.getD k' ∧ ¬(k' = k ∧ x ∈ b) := by
  intro b
  induction b with
  | nil => intro m; simp
  | cons c rest ih =>
    intro m
    rw [List.foldl_cons, ih, mem_getD_eraseElem]
    simp only [List.mem_cons]
    tauto

theorem getD_setB_touch (m : HMap) (k k' : TypeId) :
    (m.setB k (m.getD k)).getD k' = m.getD k' := by
  by_cases hk : k' = k
  · subst hk; rw [HMap.getD_setB_self]
  · rw [HMap.getD_setB_ne _ _ hk]

theorem mem_getD_mergeFold {o : HMap} {k : TypeId} {x : CompId} :
    ∀ (ks : List TypeId) (m : HMap),
      x ∈ (ks.foldl (fun acc k0 =>
            (o.getD k0).foldl (fun a c => a.insertElem k0 c) (acc.setB k0 (acc.getD k0))) m).getD k
        ↔ x ∈ m.getD k ∨ (k ∈ ks ∧ x ∈ o.getD k) := by
  intro ks
  induction ks with
  | nil => intro m; simp
  | cons k0 rest ih =>
    intro m
    rw [List.foldl_cons, ih, mem_getD_foldl_insert_bucket, getD_setB_touch]
    simp only [List.mem_cons]
    constructor
    · rintro ((⟨hk0, hx⟩ | h) | ⟨hkr, hx⟩)
      · exact Or.inr ⟨Or.inl hk0, by rw [hk0]; exact hx⟩
      · exact Or.inl h
      · exact Or.inr ⟨Or.inr hkr, hx⟩
    · rintro (h | ⟨hk', hx⟩)
      · exact Or.inl (Or.inr h)
      · rcases hk' with hk0 | hkr
        · exact Or.inl (Or.inl ⟨hk0, by rw [← hk0]; exact hx⟩)
        · exact Or.inr ⟨hkr, hx⟩

theorem mem_getD_mergeFrom {m o : HMap} {k : TypeId} {x : CompId} :
    x ∈ (m.mergeFrom o).getD k ↔ x ∈ m.getD k ∨ (k ∈ o.keys ∧ x ∈ o.getD k) :=
  mem_getD_mergeFold o.keys m

theorem mem_getD_unmergeFold {o : HMap} {k : TypeId} {x : CompId} :
    ∀ (ks : List TypeId) (m : HMap),
      x ∈ (ks.foldl (fun acc k0 =>
            (o.getD k0).foldl (fun a c => a.eraseElem k0 c) acc) m).getD k
        ↔ x ∈ m.getD k ∧ ¬(k ∈ ks ∧ x ∈ o.getD k) := by
  intro ks
  induction ks with
  | nil => intro m; simp
  | cons k0 rest ih =>
    intro m
    rw [List.foldl_cons, ih, mem_getD_foldl_erase_bucket]
    simp only [List.mem_cons]
    constructor
    · rintro ⟨⟨hm, hno0⟩, hnor⟩
      refine ⟨hm, ?_⟩
      rintro ⟨hk0 | hkr, hx⟩
      · exact hno0 ⟨hk0, by rw [← hk0]; exact hx⟩
      · exact hnor ⟨hkr, hx⟩
    · rintro ⟨hm, hno⟩
      refine ⟨⟨hm, ?_⟩, ?_⟩
      · rintro ⟨hk0, hx⟩
        exact hno ⟨Or.inl hk0, by rw [hk0]; exact hx⟩
      · rintro ⟨hkr, hx⟩
        exact hno ⟨Or.inr hkr, hx⟩

theorem mem_getD_unmergeFrom {m o : HMap} {k : TypeId} {x : CompId} :
    x ∈ (m.unmergeFrom o).getD k ↔ x ∈ m.getD k ∧ ¬(k ∈ o.keys ∧ x ∈ o.getD k) :=
  mem_getD_unmergeFold o.keys m

theorem disjointB_sound {m o : HMap} (h : HMap.disjointB m o = true) :
    ∀ k x, x ∈ m.getD k → x ∉ o.getD k := by
  intro k x hx
  have hk : k ∈ m.keys := by
    unfold HMap.getD at hx
    by_cases hkk : k ∈ m.keys
    · exact hkk
    · rw [if_neg hkk] at hx
      exact absurd hx (List.not_mem_nil x)
  unfold HMap.disjointB at h
  have h1 := List.all_eq_true.mp h k hk
  have h2 := List.all_eq_true.mp h1 x hx
  exact of_decide_eq_true h2

theorem foldlPreserve {α β : Type} {g : β → α → β} {P : β → Prop}
    (h : ∀ b a, P b → P (g b a)) : ∀ (l : List α) (b : β), P b → P (l.foldl g b) := by
  intro l
  induction l with
  | nil => intro b hb; exact hb
  | cons a rest ih => intro b hb; exact ih _ (h b a hb)

theorem mem_components_addComponent {s : ComponentStore} {T : CompType} {c x : CompId}
    {k : TypeId} :
    x ∈ ((s.addComponent T c).2).components.getD k ↔
      (x = c ∧ k = T.tid) ∨ x ∈ s.components.getD k :=
  mem_getD_insertElem

theorem mem_red_addComponent {s : ComponentStore} {T : CompType} {c x : CompId} {k : TypeId} :
    x ∈ ((s.addComponent T c).2).componentsRedundant.getD k ↔
      (x = c ∧ k ∈ T.alts) ∨ x ∈ s.componentsRedundant.getD k :=
  mem_getD_foldl_insertElem T.alts s.componentsRedundant

theorem mem_components_removeComponent {s : ComponentStore} {T : CompType} {c x : CompId}
    {k : TypeId} :
    x ∈ (s.removeComponent T c).components.getD k ↔
      x ∈ s.components.getD k ∧ ¬(x = c ∧ k = T.tid) :=
  mem_getD_eraseElem

theorem mem_red_removeComponent {s : ComponentStore} {T : CompType} {c x : CompId} {k : TypeId} :
    x ∈ (s.removeComponent T c).componentsRedundant.getD k ↔
      x ∈ s.componentsRedundant.getD k ∧ ¬(x = c ∧ k ∈ T.alts) :=
  mem_getD_foldl_eraseElem T.alts s.componentsRedundant

theorem R2Inv_applyOp {cty : CompId → CompType} {s : ComponentStore} (h : R2Inv cty s)
    (op : StoreOp) : R2Inv cty (applyOp cty s op) := by
  intro c a ha
  unfold applyOp
  by_cases hop : op.1 = true
  · rw [if_pos hop, mem_components_addComponent, mem_red_addComponent]
    by_cases hc : c = op.2
    · subst hc
      simp [ha]
    · simp [hc]
      exact h c a ha
  · rw [if_neg hop, mem_components_removeComponent, mem_red_removeComponent]
    by_cases hc : c = op.2
    · subst hc
      simp [ha]
    · simp [hc]
      exact h c a ha

theorem R2Inv_empty (cty : CompId → CompType) : R2Inv cty ComponentStore.empty := by
  intro c a _
  simp [ComponentStore.empty, HMap.empty, HMap.getD]

theorem R2Inv_applyOps (cty : CompId → CompType) (ops : List StoreOp) :
    R2Inv cty (applyOps cty ops ComponentStore.empty) := by
  unfold applyOps
  exact @foldlPreserve _ _ _ (R2Inv cty) (fun s op hs => R2Inv_applyOp hs op) ops
    ComponentStore.empty (R2Inv_empty cty)

/-- Claim C2: AddComponent of T inserts the reference into components[T] and
into componentsRedundant[A] for every declared alternate A and returns the
same reference; RemoveComponent of T erases it from components[T] and from
every componentsRedundant[A] simultaneously; hence after any sequence of adds
and removes starting from an empty store, a component is in the exact bucket
of its concrete type exactly when it is in the redundant bucket of each of its
declared alternate types (and, when it declares at least one alternate, exactly
when it is in all of them). -/
theorem claim2_store_symmetry (cty : CompId → CompType) (ops : List StoreOp)
    (s : ComponentStore) (T : CompType) (c : CompId) (a : TypeId) (ha : a ∈ T.alts) :
    ((s.addComponent T c).1 = c) ∧
    (c ∈ ((s.addComponent T c).2).components.getD T.tid) ∧
    (c ∈ ((s.addComponent T c).2).componentsRedundant.getD a) ∧
    (c ∉ (s.removeComponent T c).components.getD T.tid) ∧
    (c ∉ (s.removeComponent T c).componentsRedundant.getD a) ∧
    (∀ c' a', a' ∈ (cty c').alts →
      (c' ∈ (applyOps cty ops ComponentStore.empty).components.getD (cty c').tid ↔
       c' ∈ (applyOps cty ops ComponentStore.empty).componentsRedundant.getD a')) ∧
    ((cty c).alts ≠ [] →
      (c ∈ (applyOps cty ops ComponentStore.empty).components.getD (cty c).tid ↔
       ∀ a' ∈ (cty c).alts,
         c ∈ (applyOps cty ops ComponentStore.empty).componentsRedundant.getD a')) := by
  have hinv := R2Inv_applyOps cty ops
  refine ⟨rfl, ?_, ?_, ?_, ?_, hinv, ?_⟩
  · exact mem_components_addComponent.mpr (Or.inl ⟨rfl, rfl⟩)
  · exact mem_red_addComponent.mpr (Or.inl ⟨rfl, ha⟩)
  · intro hmem
    exact (mem_components_removeComponent.mp hmem).2 ⟨rfl, rfl⟩
  · intro hmem
    exact (mem_red_removeComponent.mp hmem).2 ⟨rfl, ha⟩
  · intro hne
    constructor
    · intro hmem a' ha'
      exact (hinv c a' ha').mp hmem
    · intro hall
      obtain ⟨a0, ha0⟩ := List.exists_mem_of_ne_nil _ hne
      exact (hinv c a0 ha0).mpr (hall a0 ha0)

/-- Witness for C2 at a concrete typing, operation list and store. -/
theorem claim2_witness :
    (1 ∈ (CompType.mk 0 [1]).alts) ∧
    ((ComponentStore.empty.addComponent ⟨0, [1]⟩ 5).1 = 5) ∧
    (5 ∈ ((ComponentStore.empty.addComponent ⟨0, [1]⟩ 5).2).components.getD 0) ∧
    (5 ∈ ((ComponentStore.empty.addComponent ⟨0, [1]⟩ 5).2).componentsRedundant.getD 1) ∧
    (5 ∉ (ComponentStore.empty.removeComponent ⟨0, [1]⟩ 5).components.getD 0) ∧
    (5 ∉ (ComponentStore.empty.removeComponent ⟨0, [1]⟩ 5).componentsRedundant.getD 1) ∧
    (∀ c' a', a' ∈ ((fun _ => CompType.mk 0 [1]) c').alts →
      (c' ∈ (applyOps (fun _ => ⟨0, [1]⟩) [(true, 5)] ComponentStore.empty).components.getD
            ((fun _ => CompType.mk 0 [1]) c').tid ↔
       c' ∈ (applyOps (fun _ => ⟨0, [1]⟩) [(true, 5)]
              ComponentStore.empty).componentsRedundant.getD a')) ∧
    (((fun _ => CompType.mk 0 [1]) 5).alts ≠ [] →
      (5 ∈ (applyOps (fun _ => ⟨0, [1]⟩) [(true, 5)] ComponentStore.empty).components.getD
            ((fun _ => CompType.mk 0 [1]) 5).tid ↔
       ∀ a' ∈ ((fun _ => CompType.mk 0 [1]) 5).alts,
         5 ∈ (applyOps (fun _ => ⟨0, [1]⟩) [(true, 5)]
              ComponentStore.empty).componentsRedundant.getD a')) :=
  ⟨by decide,
   (claim2_store_symmetry (fun _ => ⟨0, [1]⟩) [(true, 5)] ComponentStore.empty ⟨0, [1]⟩ 5 1
     (by decide)).1,
   (claim2_store_symmetry (fun _ => ⟨0, [1]⟩) [(true, 5)] ComponentStore.empty ⟨0, [1]⟩ 5 1
     (by decide)).2.1,
   (claim2_store_symmetry (fun _ => ⟨0, [1]⟩) [(true, 5)] ComponentStore.empty ⟨0, [1]⟩ 5 1
     (by decide)).2.2.1,
   (claim2_store_symmetry (fun _ => ⟨0, [1]⟩) [(true, 5)] ComponentStore.empty ⟨0, [1]⟩ 5 1
     (by decide)).2.2.2.1,
   (claim2_store_symmetry (fun _ => ⟨0, [1]⟩) [(true, 5)] ComponentStore.empty ⟨0, [1]⟩ 5 1
     (by decide)).2.2.2.2.1,
   (claim2_store_symmetry (fun _ => ⟨0, [1]⟩) [(true, 5)] ComponentStore.empty ⟨0, [1]⟩ 5 1
     (by decide)).2.2.2.2.2.1,
   (claim2_store_symmetry (fun _ => ⟨0, [1]⟩) [(true, 5)] ComponentStore.empty ⟨0, [1]⟩ 5 1
     (by decide)).2.2.2.2.2.2⟩

/-- Counterexample to C4 as stated: after adding and then removing the only
component of a type, components still contains the key with an empty bucket,
so HasComponentOfType returns true while GetComponent fails with not-found.
The claimed implication from HasComponentOfType to a successful GetComponent
is therefore false. -/
theorem claim4_counterexample :
    c4store.hasComponentOfType 0 = true ∧ c4store.getComponent 0 = none := by decide

/-- Claim C4 (amended): GetComponent of T returns the first match in
components[T], otherwise falls back to the first match in the redundant
(subclass) map, and fails with not-found exactly when both buckets for T are
empty.  Because HasComponentOfType tests key presence rather than bucket
non-emptiness, it can return true while GetComponent fails. -/
theorem claim4_get_component_not_found (s : ComponentStore) (t : TypeId) :
    (s.getComponent t = none ↔
      s.components.getD t = [] ∧ s.componentsRedundant.getD t = []) ∧
    (∀ x b, s.components.getD t = x :: b → s.getComponent t = some x) ∧
    (∀ x b, s.components.getD t = [] → s.componentsRedundant.getD t = x :: b →
      s.getComponent t = some x) := by
  refine ⟨?_, ?_, ?_⟩
  · cases h1 : s.components.getD t with
    | cons y ys => simp [ComponentStore.getComponent, h1]
    | nil =>
      cases h2 : s.componentsRedundant.getD t with
      | cons y ys =>
        simp [ComponentStore.getComponent, ComponentStore.getComponentOfSubtype, h1, h2]
      | nil =>
        simp [ComponentStore.getComponent, ComponentStore.getComponentOfSubtype, h1, h2]
  · intro x b h1
    simp [ComponentStore.getComponent, h1]
  · intro x b h1 h2
    simp [ComponentStore.getComponent, ComponentStore.getComponentOfSubtype, h1, h2]

/-- Witness for the amended C4 on a concrete store with an exact match and on
one that only matches through the redundant map. -/
theorem claim4_witness :
    (c4store.getComponent 0 = none ↔
      c4store.components.getD 0 = [] ∧ c4store.componentsRedundant.getD 0 = []) ∧
    (c8w.components.getD 0 = 7 :: [] → c8w.getComponent 0 = some 7) ∧
    (c8e.components.getD 2 = [] → c8e.componentsRedundant.getD 2 = 9 :: [] →
      c8e.getComponent 2 = some 9) :=
  ⟨(claim4_get_component_not_found c4store 0).1,
   (claim4_get_component_not_found c8w 0).2.1 7 [],
   (claim4_get_component_not_found c8e 2).2.2 9 []⟩

/-- Counterexample to C8 as stated: for a world store and an entity store that
share a component, Merge followed by Unmerge does not restore the world
store's buckets, since Unmerge erases the shared component that was present
before the merge.  The claimed universal restoration is therefore false. -/
theorem claim8_counterexample :
    7 ∈ c8w.components.getD 0 ∧
    7 ∉ ((c8w.storeMerge c8w).storeUnmerge c8w).components.getD 0 := by decide

/-- Claim C8 (amended): when the world store and the entity store are
bucket-wise disjoint, which holds for the stores Merge and Unmerge are applied
to in World::Spawn and World::Destroy, Merge followed by Unmerge of the same
store restores every type bucket of both maps up to set equality.  Without
disjointness the restoration fails, see the counterexample. -/
theorem claim8_merge_unmerge_inverse (w e : ComponentStore)
    (h : storeDisjoint w e = true) (k : TypeId) (x : CompId) :
    (x ∈ ((w.storeMerge e).storeUnmerge e).components.getD k ↔
      x ∈ w.components.getD k) ∧
    (x ∈ ((w.storeMerge e).storeUnmerge e).componentsRedundant.getD k ↔
      x ∈ w.componentsRedundant.getD k) := by
  unfold storeDisjoint at h
  rw [Bool.and_eq_true] at h
  obtain ⟨hc, hr⟩ := h
  have hdc := disjointB_sound hc k x
  have hdr := disjointB_sound hr k x
  constructor
  · show x ∈ ((w.components.mergeFrom e.components).unmergeFrom e.components).getD k ↔ _
    rw [mem_getD_unmergeFrom, mem_getD_mergeFrom]
    constructor
    · rintro ⟨hw | ⟨_, hx⟩, hno⟩
      · exact hw
      · exact absurd ⟨by
          by_cases hkk : k ∈ e.components.keys
          · exact hkk
          · unfold HMap.getD at hx
            rw [if_neg hkk] at hx
            exact absurd hx (List.not_mem_nil x), hx⟩ hno
    · intro hw
      exact ⟨Or.inl hw, fun hke => hdc hw hke.2⟩
  · show x ∈ ((w.componentsRedundant.mergeFrom e.componentsRedundant).unmergeFrom
        e.componentsRedundant).getD k ↔ _
    rw [mem_getD_unmergeFrom, mem_getD_mergeFrom]
    constructor
    · rintro ⟨hw | ⟨_, hx⟩, hno⟩
      · exact hw
      · exact absurd ⟨by
          by_cases hkk : k ∈ e.componentsRedundant.keys
          · exact hkk
          · unfold HMap.getD at hx
            rw [if_neg hkk] at hx
            exact absurd hx (List.not_mem_nil x), hx⟩ hno
    · intro hw
      exact ⟨Or.inl hw, fun hke => hdr hw hke.2⟩

/-- Witness for the amended C8 on concrete disjoint stores. -/
theorem claim8_witness :
    storeDisjoint c8w c8e = true ∧
    ((7 ∈ ((c8w.storeMerge c8e).storeUnmerge c8e).components.getD 0 ↔
       7 ∈ c8w.components.getD 0) ∧
     (7 ∈ ((c8w.storeMerge c8e).storeUnmerge c8e).componentsRedundant.getD 0 ↔
       7 ∈ c8w.componentsRedundant.getD 0)) :=
  ⟨by decide, claim8_merge_unmerge_inverse c8w c8e (by decide) 0 7⟩

/-- Claim C10: with a live parent store, AddComponent also inserts the
component into the parent store and fires the parent's OnAddComponent hook,
while RemoveComponent never touches the parent store, so a component removed
from an entity store stays present in the world store it was propagated to. -/
theorem claim10_parent_propagation (cfg : StoreCfg) (T : CompType) (c : CompId)
    (p : ComponentStore) (hp : cfg.parent = some p) :
    ((cfg.addComponent T c).1 = c) ∧
    ((cfg.addComponent T c).2.parent = some ((p.addComponent T c).2)) ∧
    (c ∈ ((p.addComponent T c).2).components.getD T.tid) ∧
    ((cfg.addComponent T c).2.parentEvents = cfg.parentEvents ++ [c]) ∧
    (∀ cfg' : StoreCfg, ((cfg'.removeComponent T c).parent = cfg'.parent) ∧
      ((cfg'.removeComponent T c).parentEvents = cfg'.parentEvents)) ∧
    (c ∉ ((cfg.addComponent T c).2.removeComponent T c).child.components.getD T.tid) ∧
    (((cfg.addComponent T c).2.removeComponent T c).parent = some ((p.addComponent T c).2)) := by
  refine ⟨rfl, ?_, ?_, ?_, ?_, ?_, ?_⟩
  · unfold StoreCfg.addComponent
    rw [hp]
  · exact mem_components_addComponent.mpr (Or.inl ⟨rfl, rfl⟩)
  · unfold StoreCfg.addComponent
    rw [hp]
  · intro cfg'
    exact ⟨rfl, rfl⟩
  · intro hmem
    exact (mem_components_removeComponent.mp hmem).2 ⟨rfl, rfl⟩
  · unfold StoreCfg.removeComponent StoreCfg.addComponent
    rw [hp]

/-- Witness for C10 on a concrete child store with a live parent. -/
theorem claim10_witness :
    ((StoreCfg.mk ComponentStore.empty (some c8w) []).parent = some c8w) ∧
    (((StoreCfg.mk ComponentStore.empty (some c8w) []).addComponent ⟨3, []⟩ 11).1 = 11) ∧
    (((StoreCfg.mk ComponentStore.empty (some c8w) []).addComponent ⟨3, []⟩ 11).2.parent =
      some ((c8w.addComponent ⟨3, []⟩ 11).2)) ∧
    (11 ∈ ((c8w.addComponent ⟨3, []⟩ 11).2).components.getD 3) ∧
    (((StoreCfg.mk ComponentStore.empty (some c8w) []).addComponent ⟨3, []⟩ 11).2.parentEvents =
      [] ++ [11]) ∧
    (11 ∉ (((StoreCfg.mk ComponentStore.empty (some c8w) []).addComponent
        ⟨3, []⟩ 11).2.removeComponent ⟨3, []⟩ 11).child.components.getD 3) ∧
    ((((StoreCfg.mk ComponentStore.empty (some c8w) []).addComponent
        ⟨3, []⟩ 11).2.removeComponent ⟨3, []⟩ 11).parent = some ((c8w.addComponent ⟨3, []⟩ 11).2)) :=
  ⟨rfl,
   (claim10_parent_propagation ⟨ComponentStore.empty, some c8w, []⟩ ⟨3, []⟩ 11 c8w rfl).1,
   (claim10_parent_propagation ⟨ComponentStore.empty, some c8w, []⟩ ⟨3, []⟩ 11 c8w rfl).2.1,
   (claim10_parent_propagation ⟨ComponentStore.empty, some c8w, []⟩ ⟨3, []⟩ 11 c8w rfl).2.2.1,
   (claim10_parent_propagation ⟨ComponentStore.empty, some c8w, []⟩ ⟨3, []⟩ 11 c8w rfl).2.2.2.1,
   (claim10_parent_propagation ⟨ComponentStore.empty, some c8w, []⟩ ⟨3, []⟩ 11 c8w
     rfl).2.2.2.2.2.1,
   (claim10_parent_propagation ⟨ComponentStore.empty, some c8w, []⟩ ⟨3, []⟩ 11 c8w
     rfl).2.2.2.2.2.2⟩

theorem spawnBody_ents (cfg : Config) (e x : Nat) :
    (spawnBody cfg e).ents x =
      if x = e then { cfg.ents e with world := some 0, parentLinked := true }
      else cfg.ents x := rfl

theorem destroyBody_ents (cfg : Config) (e x : Nat) :
    (destroyBody cfg e).ents x =
      if x = e then { cfg.ents e with world := none, parentLinked := false }
      else cfg.ents x := rfl

theorem spawnBody_entities (cfg : Config) (e : Nat) :
    (spawnBody cfg e).world.entities = entInsert cfg.world.entities e := rfl

theorem destroyBody_entities (cfg : Config) (e : Nat) :
    (destroyBody cfg e).world.entities = entErase cfg.world.entities e := rfl

theorem spawnBody_pending (cfg : Config) (e : Nat) :
    (spawnBody cfg e).world.pendingSpawn = cfg.world.pendingSpawn ∧
    (spawnBody cfg e).world.pendingDestruction = cfg.world.pendingDestruction := ⟨rfl, rfl⟩

theorem destroyBody_pending (cfg : Config) (e : Nat) :
    (destroyBody cfg e).world.pendingSpawn = cfg.world.pendingSpawn ∧
    (destroyBody cfg e).world.pendingDestruction = cfg.world.pendingDestruction := ⟨rfl, rfl⟩

theorem spawnAux_guard (fuel : Nat) (cfg : Config) (e : Nat)
    (h : ((cfg.ents e).world).isSome = true) : spawnAux fuel cfg e = (cfg, false) := by
  cases fuel <;> simp [spawnAux, h]

theorem destroyAux_guard (fuel : Nat) (cfg : Config) (e : Nat)
    (h : (cfg.ents e).world = none) : destroyAux fuel cfg e = (cfg, false) := by
  cases fuel <;> simp [destroyAux, h]

theorem spawn_world_isSome_preserved :
    ∀ (fuel : Nat) (cfg : Config) (e x : Nat),
      ((cfg.ents x).world).isSome = true →
      (((spawnAux fuel cfg e).1.ents x).world).isSome = true := by
  intro fuel
  induction fuel with
  | zero =>
    intro cfg e x hx
    cases hg : ((cfg.ents e).world).isSome with
    | true => simp [spawnAux, hg, hx]
    | false =>
      simp [spawnAux, hg]
      rw [spawnBody_ents]
      by_cases hxe : x = e
      · simp [hxe]
      · simp [hxe]; exact hx
  | succ f ih =>
    intro cfg e x hx
    cases hg : ((cfg.ents e).world).isSome with
    | true => simp [spawnAux, hg, hx]
    | false =>
      simp [spawnAux, hg]
      apply @foldlPreserve _ _ _ (fun c : Config => ((c.ents x).world).isSome = true)
      · intro b a hb
        exact ih b a x hb
      · rw [spawnBody_ents]
        by_cases hxe : x = e
        · simp [hxe]
        · simp [hxe]; exact hx

theorem destroy_world_none_preserved :
    ∀ (fuel : Nat) (cfg : Config) (e x : Nat),
      (cfg.ents x).world = none →
      ((destroyAux fuel cfg e).1.ents x).world = none := by
  intro fuel
  induction fuel with
  | zero =>
    intro cfg e x hx
    cases hg : ((cfg.ents e).world).isSome with
    | false => simp [destroyAux, hg, hx]
    | true =>
      simp [destroyAux, hg]
      rw [destroyBody_ents]
      by_cases hxe : x = e
      · simp [hxe]
      · simp [hxe]; exact hx
  | succ f ih =>
    intro cfg e x hx
    cases hg : ((cfg.ents e).world).isSome with
    | false => simp [destroyAux, hg, hx]
    | true =>
      simp [destroyAux, hg]
      apply @foldlPreserve _ _ _ (fun c : Config => (c.ents x).world = none)
      · intro b a hb
        exact ih b a x hb
      · rw [destroyBody_ents]
        by_cases hxe : x = e
        · simp [hxe]
        · simp [hxe]; exact hx

theorem spawnAux_success (fuel : Nat) (cfg : Config) (e : Nat)
    (h : (cfg.ents e).world = none) :
    (spawnAux fuel cfg e).2 = true ∧
    (((spawnAux fuel cfg e).1.ents e).world).isSome = true := by
  have hg : ((cfg.ents e).world).isSome = false := by rw [h]; rfl
  cases fuel with
  | zero =>
    refine ⟨by simp [spawnAux, hg], ?_⟩
    simp [spawnAux, hg]
    rw [spawnBody_ents]
    simp
  | succ f =>
    refine ⟨by simp [spawnAux, hg], ?_⟩
    simp [spawnAux, hg]
    apply @foldlPreserve _ _ _ (fun c : Config => ((c.ents e).world).isSome = true)
    · intro b a hb
      exact spawn_world_isSome_preserved f b a e hb
    · rw [spawnBody_ents]
      simp

theorem destroyAux_success (fuel : Nat) (cfg : Config) (e : Nat)
    (h : ((cfg.ents e).world).isSome = true) :
    (destroyAux fuel cfg e).2 = true ∧
    ((destroyAux fuel cfg e).1.ents e).world = none := by
  cases fuel with
  | zero =>
    refine ⟨by simp [destroyAux, h], ?_⟩
    simp [destroyAux, h]
    rw [destroyBody_ents]
    simp
  | succ f =>
    refine ⟨by simp [destroyAux, h], ?_⟩
    simp [destroyAux, h]
    apply @foldlPreserve _ _ _ (fun c : Config => (c.ents e).world = none)
    · intro b a hb
      exact destroy_world_none_preserved f b a e hb
    · rw [destroyBody_ents]
      simp

theorem mem_entInsert_self (l : List Nat) (e : Nat) : e ∈ entInsert l e := by
  unfold entInsert
  by_cases h : e ∈ l
  · rw [if_pos h]; exact h
  · rw [if_neg h]; simp

theorem mem_entInsert_of_mem {l : List Nat} {x : Nat} (e : Nat) (h : x ∈ l) :
    x ∈ entInsert l e := by
  unfold entInsert
  by_cases he : e ∈ l
  · rw [if_pos he]; exact h
  · rw [if_neg he]; simp [h]

theorem not_mem_entErase_self (l : List Nat) (e : Nat) : e ∉ entErase l e := by
  unfold entErase
  intro h
  have := (List.mem_filter.mp h).2
  simp at this

theorem not_mem_entErase_of_not_mem {l : List Nat} {x : Nat} (e : Nat) (h : x ∉ l) :
    x ∉ entErase l e := by
  unfold entErase
  intro hm
  exact h (List.mem_filter.mp hm).1

theorem spawnAux_entities_mono :
    ∀ (fuel : Nat) (cfg : Config) (e x : Nat),
      x ∈ cfg.world.entities → x ∈ (spawnAux fuel cfg e).1.world.entities := by
  intro fuel
  induction fuel with
  | zero =>
    intro cfg e x hx
    cases hg : ((cfg.ents e).world).isSome with
    | true => simp [spawnAux, hg, hx]
    | false =>
      simp [spawnAux, hg]
      rw [spawnBody_entities]
      exact mem_entInsert_of_mem e hx
  | succ f ih =>
    intro cfg e x hx
    cases hg : ((cfg.ents e).world).isSome with
    | true => simp [spawnAux, hg, hx]
    | false =>
      simp [spawnAux, hg]
      apply @foldlPreserve _ _ _ (fun c : Config => x ∈ c.world.entities)
      · intro b a hb
        exact ih b a x hb
      · rw [spawnBody_entities]
        exact mem_entInsert_of_mem e hx

theorem destroyAux_entities_anti :
    ∀ (fuel : Nat) (cfg : Config) (e x : Nat),
      x ∉ cfg.world.entities → x ∉ (destroyAux fuel cfg e).1.world.entities := by
  intro fuel
  induction fuel with
  | zero =>
    intro cfg e x hx
    cases hg : ((cfg.ents e).world).isSome with
    | false => simp [destroyAux, hg]; exact hx
    | true =>
      simp [destroyAux, hg]
      rw [destroyBody_entities]
      exact not_mem_entErase_of_not_mem e hx
  | succ f ih =>
    intro cfg e x hx
    cases hg : ((cfg.ents e).world).isSome with
    | false => simp [destroyAux, hg]; exact hx
    | true =>
      simp [destroyAux, hg]
      apply @foldlPreserve _ _ _ (fun c : Config => x ∉ c.world.entities)
      · intro b a hb
        exact ih b a x hb
      · rw [destroyBody_entities]
        exact not_mem_entErase_of_not_mem e hx

theorem spawnAux_mem_self (fuel : Nat) (cfg : Config) (e : Nat)
    (h : (cfg.ents e).world = none) : e ∈ (spawnAux fuel cfg e).1.world.entities := by
  have hg : ((cfg.ents e).world).isSome = false := by rw [h]; rfl
  cases fuel with
  | zero =>
    simp [spawnAux, hg]
    rw [spawnBody_entities]
    exact mem_entInsert_self _ e
  | succ f =>
    simp [spawnAux, hg]
    apply @foldlPreserve _ _ _ (fun c : Config => e ∈ c.world.entities)
    · intro b a hb
      exact spawnAux_entities_mono f b a e hb
    · rw [spawnBody_entities]
      exact mem_entInsert_self _ e

theorem destroyAux_not_mem_self (fuel : Nat) (cfg : Config) (e : Nat)
    (h : ((cfg.ents e).world).isSome = true) :
    e ∉ (destroyAux fuel cfg e).1.world.entities := by
  cases fuel with
  | zero =>
    simp [destroyAux, h]
    rw [destroyBody_entities]
    exact not_mem_entErase_self _ e
  | succ f =>
    simp [destroyAux, h]
    apply @foldlPreserve _ _ _ (fun c : Config => e ∉ c.world.entities)
    · intro b a hb
      exact destroyAux_entities_anti f b a e hb
    · rw [destroyBody_entities]
      exact not_mem_entErase_self _ e

theorem spawnAux_pending :
    ∀ (fuel : Nat) (cfg : Config) (e : Nat),
      (spawnAux fuel cfg e).1.world.pendingSpawn = cfg.world.pendingSpawn ∧
      (spawnAux fuel cfg e).1.world.pendingDestruction = cfg.world.pendingDestruction := by
  intro fuel
  induction fuel with
  | zero =>
    intro cfg e
    cases hg : ((cfg.ents e).world).isSome with
    | true => simp [spawnAux, hg]
    | false =>
      simp [spawnAux, hg]
      exact spawnBody_pending cfg e
  | succ f ih =>
    intro cfg e
    cases hg : ((cfg.ents e).world).isSome with
    | true => simp [spawnAux, hg]
    | false =>
      simp [spawnAux, hg]
      apply @foldlPreserve _ _ _
        (fun c : Config => c.world.pendingSpawn = cfg.world.pendingSpawn ∧
          c.world.pendingDestruction = cfg.world.pendingDestruction)
      · intro b a hb
        exact ⟨((ih b a).1).trans hb.1, ((ih b a).2).trans hb.2⟩
      · exact spawnBody_pending cfg e

theorem destroyAux_pending :
    ∀ (fuel : Nat) (cfg : Config) (e : Nat),
      (destroyAux fuel cfg e).1.world.pendingSpawn = cfg.world.pendingSpawn ∧
      (destroyAux fuel cfg e).1.world.pendingDestruction = cfg.world.pendingDestruction := by
  intro fuel
  induction fuel with
  | zero =>
    intro cfg e
    cases hg : ((cfg.ents e).world).isSome with
    | false => simp [destroyAux, hg]
    | true =>
      simp [destroyAux, hg]
      exact destroyBody_pending cfg e
  | succ f ih =>
    intro cfg e
    cases hg : ((cfg.ents e).world).isSome with
    | false => simp [destroyAux, hg]
    | true =>
      simp [destroyAux, hg]
      apply @foldlPreserve _ _ _
        (fun c : Config => c.world.pendingSpawn = cfg.world.pendingSpawn ∧
          c.world.pendingDestruction = cfg.world.pendingDestruction)
      · intro b a hb
        exact ⟨((ih b a).1).trans hb.1, ((ih b a).2).trans hb.2⟩
      · exact destroyBody_pending cfg e

/-- Counterexample to C1 as stated: entity 0 is spawned and present in
Entities; a single call to Destroy, with no intervening Tick, already returns
true, removes the entity from Entities and leaves the pending-destruction
queue empty, so the Entities set does not stay unchanged until the next tick
boundary. -/
theorem claim1_counterexample :
    cfgD.world.entities = [0] ∧
    (destroyAux 1 cfgD 0).2 = true ∧
    (destroyAux 1 cfgD 0).1.world.entities = [] ∧
    (destroyAux 1 cfgD 0).1.world.pendingDestruction = [] := by decide

/-- Claim C1 (amended): World::Spawn and World::Destroy are applied
immediately, during the call itself: a successful Spawn inserts the entity
into the Entities set and a successful Destroy removes it at once, while the
PendingSpawn and PendingDestruction queues declared in World.hpp are never
written by either operation, so no request is buffered to the next tick
boundary. -/
theorem claim1_spawn_destroy_immediate (cfg : Config) (e fuel : Nat) :
    ((cfg.ents e).world = none →
      (spawnAux fuel cfg e).2 = true ∧ e ∈ (spawnAux fuel cfg e).1.world.entities) ∧
    (((cfg.ents e).world).isSome = true →
      (destroyAux fuel cfg e).2 = true ∧ e ∉ (destroyAux fuel cfg e).1.world.entities) ∧
    (spawnAux fuel cfg e).1.world.pendingSpawn = cfg.world.pendingSpawn ∧
    (spawnAux fuel cfg e).1.world.pendingDestruction = cfg.world.pendingDestruction ∧
    (destroyAux fuel cfg e).1.world.pendingSpawn = cfg.world.pendingSpawn ∧
    (destroyAux fuel cfg e).1.world.pendingDestruction = cfg.world.pendingDestruction :=
  ⟨fun h => ⟨(spawnAux_success fuel cfg e h).1, spawnAux_mem_self fuel cfg e h⟩,
   fun h => ⟨(destroyAux_success fuel cfg e h).1, destroyAux_not_mem_self fuel cfg e h⟩,
   (spawnAux_pending fuel cfg e).1, (spawnAux_pending fuel cfg e).2,
   (destroyAux_pending fuel cfg e).1, (destroyAux_pending fuel cfg e).2⟩

/-- Witness for the amended C1 on concrete configs: one with entity 0
unspawned and one with it spawned. -/
theorem claim1_witness :
    ((cfgW.ents 0).world = none) ∧
    ((spawnAux 1 cfgW 0).2 = true ∧ 0 ∈ (spawnAux 1 cfgW 0).1.world.entities) ∧
    (((cfgD.ents 0).world).isSome = true) ∧
    ((destroyAux 1 cfgD 0).2 = true ∧ 0 ∉ (destroyAux 1 cfgD 0).1.world.entities) ∧
    ((spawnAux 1 cfgW 0).1.world.pendingSpawn = cfgW.world.pendingSpawn) ∧
    ((destroyAux 1 cfgD 0).1.world.pendingDestruction = cfgD.world.pendingDestruction) :=
  ⟨rfl,
   (claim1_spawn_destroy_immediate cfgW 0 1).1 rfl,
   rfl,
   (claim1_spawn_destroy_immediate cfgD 0 1).2.1 rfl,
   (claim1_spawn_destroy_immediate cfgW 0 1).2.2.1,
   (claim1_spawn_destroy_immediate cfgD 0 1).2.2.2.2.2⟩

/-- Claim C3: Spawn on an entity with no world returns true, and an immediate
second Spawn returns false leaving the whole world state, in particular the
Entities set and its count, unchanged; symmetrically Destroy on the spawned
entity returns true and an immediate second Destroy returns false as a
no-op. -/
theorem claim3_spawn_destroy_guard (cfg : Config) (e f g h i : Nat)
    (hw : (cfg.ents e).world = none) :
    (spawnAux f cfg e).2 = true ∧
    spawnAux g (spawnAux f cfg e).1 e = ((spawnAux f cfg e).1, false) ∧
    (spawnAux g (spawnAux f cfg e).1 e).1.world.entities =
      (spawnAux f cfg e).1.world.entities ∧
    (destroyAux h (spawnAux f cfg e).1 e).2 = true ∧
    destroyAux i (destroyAux h (spawnAux f cfg e).1 e).1 e =
      ((destroyAux h (spawnAux f cfg e).1 e).1, false) := by
  obtain ⟨h1, h2⟩ := spawnAux_success f cfg e hw
  have h3 := spawnAux_guard g (spawnAux f cfg e).1 e h2
  obtain ⟨h4, h5⟩ := destroyAux_success h (spawnAux f cfg e).1 e h2
  have h6 := destroyAux_guard i (destroyAux h (spawnAux f cfg e).1 e).1 e h5
  exact ⟨h1, h3, by rw [h3], h4, h6⟩

/-- Witness for C3 on a concrete world with entity 0 initially unspawned. -/
theorem claim3_witness :
    ((cfgW.ents 0).world = none) ∧
    ((spawnAux 1 cfgW 0).2 = true ∧
     spawnAux 1 (spawnAux 1 cfgW 0).1 0 = ((spawnAux 1 cfgW 0).1, false) ∧
     (spawnAux 1 (spawnAux 1 cfgW 0).1 0).1.world.entities =
       (spawnAux 1 cfgW 0).1.world.entities ∧
     (destroyAux 1 (spawnAux 1 cfgW 0).1 0).2 = true ∧
     destroyAux 1 (destroyAux 1 (spawnAux 1 cfgW 0).1 0).1 0 =
       ((destroyAux 1 (spawnAux 1 cfgW 0).1 0).1, false)) :=
  ⟨rfl, claim3_spawn_destroy_guard cfgW 0 1 1 1 1 rfl⟩

/-- Claim C9: Entity::IsInWorld returns worldptr.isNull(), so it is true
exactly when the world back-reference is null: true for a never-spawned or
destroyed entity, false for a currently spawned one, the opposite of what the
name and documentation suggest. -/
theorem claim9_is_in_world_inverted (cfg : Config) (e fuel : Nat) (d : EntityData) (w : Nat)
    (hw : (cfg.ents e).world = none) :
    (entityIsInWorld d = true ↔ d.world = none) ∧
    entityIsInWorld (entitySetWorld d (some w)) = false ∧
    entityIsInWorld (cfg.ents e) = true ∧
    entityIsInWorld ((spawnAux fuel cfg e).1.ents e) = false ∧
    entityIsInWorld ((destroyAux fuel (spawnAux fuel cfg e).1 e).1.ents e) = true := by
  refine ⟨?_, rfl, ?_, ?_, ?_⟩
  · cases hd : d.world <;> simp [entityIsInWorld, hd]
  · simp [entityIsInWorld, hw]
  · have h2 := (spawnAux_success fuel cfg e hw).2
    cases hww : ((spawnAux fuel cfg e).1.ents e).world with
    | none => rw [hww] at h2; simp at h2
    | some v => simp [entityIsInWorld, hww]
  · have h2 := (spawnAux_success fuel cfg e hw).2
    have h5 := (destroyAux_success fuel (spawnAux fuel cfg e).1 e h2).2
    simp [entityIsInWorld, h5]

/-- Witness for C9 on a concrete config and entity record. -/
theorem claim9_witness :
    ((cfgW.ents 0).world = none) ∧
    ((entityIsInWorld ⟨some 3, ComponentStore.empty, [], true⟩ = true ↔
       (EntityData.mk (some 3) ComponentStore.empty [] true).world = none) ∧
     entityIsInWorld (entitySetWorld ⟨some 3, ComponentStore.empty, [], true⟩ (some 4)) = false ∧
     entityIsInWorld (cfgW.ents 0) = true ∧
     entityIsInWorld ((spawnAux 1 cfgW 0).1.ents 0) = false ∧
     entityIsInWorld ((destroyAux 1 (spawnAux 1 cfgW 0).1 0).1.ents 0) = true) :=
  ⟨rfl, claim9_is_in_world_inverted cfgW 0 1 ⟨some 3, ComponentStore.empty, [], true⟩ 4 rfl⟩

theorem mem_foldl_wireBefore (g : List (TypeId × GEntry)) (t : Nat) :
    ∀ (l : List TypeId) (es : List (Nat × Nat)) (ed : Nat × Nat),
      ed ∈ l.foldl (fun acc x =>
          match graphsFind g x with
          | some gx => (t, gx.task) :: acc
          | none => acc) es ↔
        ed ∈ es ∨ ∃ x ∈ l, ∃ gx, graphsFind g x = some gx ∧ ed = (t, gx.task) := by
  intro l
  induction l with
  | nil => intro es ed; simp
  | cons x rest ih =>
    intro es ed
    rw [List.foldl_cons, ih]
    cases hfx : graphsFind g x with
    | none =>
      simp only [hfx]
      constructor
      · rintro (h | ⟨x', hx', gx, hg, he⟩)
        · exact Or.inl h
        · exact Or.inr ⟨x', List.mem_cons_of_mem _ hx', gx, hg, he⟩
      · rintro (h | ⟨x', hx', gx, hg, he⟩)
        · exact Or.inl h
        · rcases List.mem_cons.mp hx' with hx0 | hxr
          · rw [hx0, hfx] at hg; cases hg
          · exact Or.inr ⟨x', hxr, gx, hg, he⟩
    | some gx0 =>
      simp only [hfx, List.mem_cons]
      constructor
      · rintro ((he | h) | ⟨x', hx', gx, hg, he⟩)
        · exact Or.inr ⟨x, Or.inl rfl, gx0, hfx, he⟩
        · exact Or.inl h
        · exact Or.inr ⟨x', Or.inr hx', gx, hg, he⟩
      · rintro (h | ⟨x', hx', gx, hg, he⟩)
        · exact Or.inl (Or.inr h)
        · rcases hx' with hx0 | hxr
          · rw [hx0, hfx] at hg
            injection hg with hgg
            exact Or.inl (Or.inl (by rw [he, hgg]))
          · exact Or.inr ⟨x', hxr, gx, hg, he⟩

theorem mem_foldl_wireAfter (g : List (TypeId × GEntry)) (t : Nat) :
    ∀ (l : List TypeId) (es : List (Nat × Nat)) (ed : Nat × Nat),
      ed ∈ l.foldl (fun acc x =>
          match graphsFind g x with
          | some gx => (gx.task, t) :: acc
          | none => acc) es ↔
        ed ∈ es ∨ ∃ x ∈ l, ∃ gx, graphsFind g x = some gx ∧ ed = (gx.task, t) := by
  intro l
  induction l with
  | nil => intro es ed; simp
  | cons x rest ih =>
    intro es ed
    rw [List.foldl_cons, ih]
    cases hfx : graphsFind g x with
    | none =>
      simp only [hfx]
      constructor
      · rintro (h | ⟨x', hx', gx, hg, he⟩)
        · exact Or.inl h
        · exact Or.inr ⟨x', List.mem_cons_of_mem _ hx', gx, hg, he⟩
      · rintro (h | ⟨x', hx', gx, hg, he⟩)
        · exact Or.inl h
        · rcases List.mem_cons.mp hx' with hx0 | hxr
          · rw [hx0, hfx] at hg; cases hg
          · exact Or.inr ⟨x', hxr, gx, hg, he⟩
    | some gx0 =>
      simp only [hfx, List.mem_cons]
      constructor
      · rintro ((he | h) | ⟨x', hx', gx, hg, he⟩)
        · exact Or.inr ⟨x, Or.inl rfl, gx0, hfx, he⟩
        · exact Or.inl h
        · exact Or.inr ⟨x', Or.inr hx', gx, hg, he⟩
      · rintro (h | ⟨x', hx', gx, hg, he⟩)
        · exact Or.inl (Or.inr h)
        · rcases hx' with hx0 | hxr
          · rw [hx0, hfx] at hg
            injection hg with hgg
            exact Or.inl (Or.inl (by rw [he, hgg]))
          · exact Or.inr ⟨x', hxr, gx, hg, he⟩

theorem mem_wireOne (g : List (TypeId × GEntry)) (es : List (Nat × Nat)) (p : TypeId × GEntry)
    (ed : Nat × Nat) :
    ed ∈ wireOne g es p ↔ ed ∈ es ∨
      (∃ x ∈ p.2.sys.runBefore, ∃ gx, graphsFind g x = some gx ∧ ed = (p.2.task, gx.task)) ∨
      (∃ x ∈ p.2.sys.runAfter, ∃ gx, graphsFind g x = some gx ∧ ed = (gx.task, p.2.task)) := by
  simp only [wireOne]
  rw [mem_foldl_wireAfter g p.2.task, mem_foldl_wireBefore g p.2.task]
  constructor
  · rintro ((h | hB) | hA)
    · exact Or.inl h
    · exact Or.inr (Or.inl hB)
    · exact Or.inr (Or.inr hA)
  · rintro (h | hB | hA)
    · exact Or.inl (Or.inl h)
    · exact Or.inl (Or.inr hB)
    · exact Or.inr hA

theorem mem_wireDeps (g : List (TypeId × GEntry)) :
    ∀ (l : List (TypeId × GEntry)) (es : List (Nat × Nat)) (ed : Nat × Nat),
      ed ∈ l.foldl (wireOne g) es ↔ ed ∈ es ∨ ∃ p ∈ l,
        (∃ x ∈ p.2.sys.runBefore, ∃ gx, graphsFind g x = some gx ∧ ed = (p.2.task, gx.task)) ∨
        (∃ x ∈ p.2.sys.runAfter, ∃ gx, graphsFind g x = some gx ∧ ed = (gx.task, p.2.task)) := by
  intro l
  induction l with
  | nil => intro es ed; simp
  | cons p rest ih =>
    intro es ed
    rw [List.foldl_cons, ih, mem_wireOne]
    constructor
    · rintro ((h | hB) | ⟨q, hq, hs⟩)
      · exact Or.inl h
      · exact Or.inr ⟨p, List.mem_cons_self p rest, hB⟩
      · exact Or.inr ⟨q, List.mem_cons_of_mem _ hq, hs⟩
    · rintro (h | ⟨q, hq, hs⟩)
      · exact Or.inl (Or.inl h)
      · rcases List.mem_cons.mp hq with h0 | hr
        · exact Or.inl (Or.inr (h0 ▸ hs))
        · exact Or.inr ⟨q, hr, hs⟩

theorem mem_wireDeps_of_mem (g : List (TypeId × GEntry)) (es : List (Nat × Nat))
    (ed : Nat × Nat) (h : ed ∈ es) : ed ∈ wireDeps g es := by
  unfold wireDeps
  exact (mem_wireDeps g g es ed).mpr (Or.inl h)

theorem physicsPhase_graphs (pa : Bool) (st : GraphState) :
    (physicsPhase pa st).graphs = st.graphs := by
  cases pa with
  | false => rfl
  | true =>
    cases h1 : graphsFind st.graphs physicsReadId <;>
      cases h2 : graphsFind st.graphs physicsWriteId <;>
        simp [physicsPhase, h1, h2]

theorem physicsPhase_task (st : GraphState) :
    (physicsPhase true st).physicsTask = some st.nextTask := by
  cases h1 : graphsFind st.graphs physicsReadId <;>
    cases h2 : graphsFind st.graphs physicsWriteId <;>
      simp [physicsPhase, h1, h2]

theorem physicsPhase_edges (st : GraphState) (gw gr : GEntry)
    (hw : graphsFind st.graphs physicsWriteId = some gw)
    (hr : graphsFind st.graphs physicsReadId = some gr) :
    (gw.task, st.nextTask) ∈ (physicsPhase true st).edges ∧
    (st.nextTask, gr.task) ∈ (physicsPhase true st).edges := by
  simp [physicsPhase, hw, hr]

theorem tickECS_graph_graphs (always : List (TypeId × SystemEntry))
    (timed : List (TypeId × TimedEntry)) (now : Int) (pa : Bool) :
    (tickECS always timed now pa).graph.graphs = (tickStage3 always timed now pa).graphs := rfl

theorem tickECS_graph_edges (always : List (TypeId × SystemEntry))
    (timed : List (TypeId × TimedEntry)) (now : Int) (pa : Bool) :
    (tickECS always timed now pa).graph.edges =
      wireDeps (tickStage3 always timed now pa).graphs (tickStage3 always timed now pa).edges :=
  rfl

theorem tickECS_timedOut (always : List (TypeId × SystemEntry))
    (timed : List (TypeId × TimedEntry)) (now : Int) (pa : Bool) :
    (tickECS always timed now pa).timedOut =
      (timedPhase now timed (alwaysPhase always GraphState.initial)).1 := rfl

theorem timedPhase_fst (now : Int) :
    ∀ (timed : List (TypeId × TimedEntry)) (st : GraphState),
      (timedPhase now timed st).1 = timed.map (timedUpdate now) := by
  intro timed
  induction timed with
  | nil => intro st; rfl
  | cons p rest ih =>
    intro st
    obtain ⟨id, te⟩ := p
    by_cases hc : now - te.last_timestamp > te.interval
    · simp [timedPhase, hc, timedUpdate, ih]
    · simp [timedPhase, hc, timedUpdate, ih]

theorem timedPhase_snd (now : Int) :
    ∀ (timed : List (TypeId × TimedEntry)) (st : GraphState),
      (timedPhase now timed st).2 =
        (timed.filter (timedCond now)).foldl
          (fun acc p => addSystemToTick p.2.system p.1 acc) st := by
  intro timed
  induction timed with
  | nil => intro st; rfl
  | cons p rest ih =>
    intro st
    obtain ⟨id, te⟩ := p
    by_cases hc : now - te.last_timestamp > te.interval
    · simp [timedPhase, hc, timedCond, ih, List.filter_cons]
    · simp [timedPhase, hc, timedCond, ih, List.filter_cons]

/-- Claim C7: the timed-tick loop turns a timed system into tasks in this
frame exactly when now minus its last timestamp exceeds its interval, read at
the start of the frame: the resulting graph state is the fold of
add_system_to_tick over precisely the entries satisfying that condition, and
each included entry's last timestamp is set to now already in the registry
returned by graph construction, before the graph is executed. -/
theorem claim7_timed_scheduling (always : List (TypeId × SystemEntry))
    (timed : List (TypeId × TimedEntry)) (now : Int) (physicsActive : Bool) :
    (tickECS always timed now physicsActive).timedOut = timed.map (timedUpdate now) ∧
    (∀ (rest : List (TypeId × TimedEntry)) (st : GraphState),
      (timedPhase now rest st).2 =
        (rest.filter (timedCond now)).foldl
          (fun acc p => addSystemToTick p.2.system p.1 acc) st) := by
  constructor
  · rw [tickECS_timedOut]
    exact timedPhase_fst now timed _
  · intro rest st
    exact timedPhase_snd now rest st

/-- Counterexample to C5 as stated: system 10 has two query types and must run
before system 20, which is included; tasks 0 and 1 both belong to system 10,
but only task 1, the one created for its last query type and retained in the
graphs map, receives a precedence edge to system 20's task 2.  No edge is
added from task 0, so an edge is not added from every task of the system. -/
theorem claim5_counterexample :
    (0, 10, 1) ∈ (tickECS c5always [] 0 false).graph.tasks ∧
    (2, 20, 3) ∈ (tickECS c5always [] 0 false).graph.tasks ∧
    20 ∈ c5sysS.runBefore ∧
    graphsFind (tickECS c5always [] 0 false).graph.graphs 20 = some ⟨2, c5sysX⟩ ∧
    (1, 2) ∈ (tickECS c5always [] 0 false).graph.edges ∧
    (0, 2) ∉ (tickECS c5always [] 0 false).graph.edges := by decide

/-- Claim C5 (amended): the dependency-wiring loop adds, for every graphs
entry of an included system and every identifier in its must-run-before set
whose system is also included this frame, an edge from the entry's stored task
(the task of the system's last query type, the only one the graphs map
retains) to the stored task of the other system, and symmetrically for the
must-run-after set; and every edge of the finished graph is either one of the
pre-wiring edges or arises from exactly such an included pair, so edges to
excluded systems are skipped outright, never deferred. -/
theorem claim5_declared_precedence (always : List (TypeId × SystemEntry))
    (timed : List (TypeId × TimedEntry)) (now : Int) (physicsActive : Bool) :
    (∀ p ∈ (tickECS always timed now physicsActive).graph.graphs,
      (∀ x ∈ p.2.sys.runBefore, ∀ gx,
        graphsFind (tickECS always timed now physicsActive).graph.graphs x = some gx →
        (p.2.task, gx.task) ∈ (tickECS always timed now physicsActive).graph.edges) ∧
      (∀ x ∈ p.2.sys.runAfter, ∀ gx,
        graphsFind (tickECS always timed now physicsActive).graph.graphs x = some gx →
        (gx.task, p.2.task) ∈ (tickECS always timed now physicsActive).graph.edges)) ∧
    (∀ ed ∈ (tickECS always timed now physicsActive).graph.edges,
      ed ∈ (tickStage3 always timed now physicsActive).edges ∨
      ∃ p ∈ (tickECS always timed now physicsActive).graph.graphs,
        (∃ x ∈ p.2.sys.runBefore, ∃ gx,
          graphsFind (tickECS always timed now physicsActive).graph.graphs x = some gx ∧
          ed = (p.2.task, gx.task)) ∨
        (∃ x ∈ p.2.sys.runAfter, ∃ gx,
          graphsFind (tickECS always timed now physicsActive).graph.graphs x = some gx ∧
          ed = (gx.task, p.2.task))) := by
  constructor
  · intro p hp
    constructor
    · intro x hx gx hgx
      rw [tickECS_graph_edges]
      unfold wireDeps
      exact (mem_wireDeps (tickStage3 always timed now physicsActive).graphs
        (tickStage3 always timed now physicsActive).graphs
        (tickStage3 always timed now physicsActive).edges _).mpr
        (Or.inr ⟨p, hp, Or.inl ⟨x, hx, gx, hgx, rfl⟩⟩)
    · intro x hx gx hgx
      rw [tickECS_graph_edges]
      unfold wireDeps
      exact (mem_wireDeps (tickStage3 always timed now physicsActive).graphs
        (tickStage3 always timed now physicsActive).graphs
        (tickStage3 always timed now physicsActive).edges _).mpr
        (Or.inr ⟨p, hp, Or.inr ⟨x, hx, gx, hgx, rfl⟩⟩)
  · intro ed hed
    rw [tickECS_graph_edges] at hed
    unfold wireDeps at hed
    exact (mem_wireDeps (tickStage3 always timed now physicsActive).graphs
      (tickStage3 always timed now physicsActive).graphs
      (tickStage3 always timed now physicsActive).edges ed).mp hed

/-- Witness for the amended C5 on the concrete two-system frame. -/
theorem claim5_witness :
    ((10, (GEntry.mk 1 c5sysS)) ∈ (tickECS c5always [] 0 false).graph.graphs) ∧
    (20 ∈ (GEntry.mk 1 c5sysS).sys.runBefore) ∧
    (graphsFind (tickECS c5always [] 0 false).graph.graphs 20 = some ⟨2, c5sysX⟩) ∧
    (((GEntry.mk 1 c5sysS).task, (GEntry.mk 2 c5sysX).task) ∈
      (tickECS c5always [] 0 false).graph.edges) :=
  ⟨by decide, by decide, by decide,
   ((claim5_declared_precedence c5always [] 0 false).1 (10, ⟨1, c5sysS⟩) (by decide)).1 20
     (by decide) ⟨2, c5sysX⟩ (by decide)⟩

/-- Claim C6: whenever physics is active, the frame graph contains a solver
task preceded by the physics-write system's stored task and preceding the
physics-read system's stored task, for any declared must-run-before or
must-run-after sets of any registered system.  The hypotheses record that the
two link systems are in this frame's graphs map, which InitPhysics guarantees
by registering both as always-tick systems. -/
theorem claim6_physics_stage_order (always : List (TypeId × SystemEntry))
    (timed : List (TypeId × TimedEntry)) (now : Int) (gw gr : GEntry)
    (hw : graphsFind (tickECS always timed now true).graph.graphs physicsWriteId = some gw)
    (hr : graphsFind (tickECS always timed now true).graph.graphs physicsReadId = some gr) :
    ∃ r, (tickECS always timed now true).graph.physicsTask = some r ∧
      (gw.task, r) ∈ (tickECS always timed now true).graph.edges ∧
      (r, gr.task) ∈ (tickECS always timed now true).graph.edges := by
  have hg : (tickECS always timed now true).graph.graphs =
      (timedPhase now timed (alwaysPhase always GraphState.initial)).2.graphs :=
    physicsPhase_graphs true _
  rw [hg] at hw hr
  obtain ⟨he1, he2⟩ :=
    physicsPhase_edges (timedPhase now timed (alwaysPhase always GraphState.initial)).2 gw gr
      hw hr
  refine ⟨(timedPhase now timed (alwaysPhase always GraphState.initial)).2.nextTask, ?_, ?_, ?_⟩
  · exact physicsPhase_task _
  · exact mem_wireDeps_of_mem _ _ _ he1
  · exact mem_wireDeps_of_mem _ _ _ he2

/-- Witness for C6 on a concrete frame with both link systems registered. -/
theorem claim6_witness :
    (graphsFind (tickECS c6always [] 0 true).graph.graphs physicsWriteId =
      some ⟨0, c6write⟩) ∧
    (graphsFind (tickECS c6always [] 0 true).graph.graphs physicsReadId =
      some ⟨1, c6read⟩) ∧
    (∃ r, (tickECS c6always [] 0 true).graph.physicsTask = some r ∧
      ((GEntry.mk 0 c6write).task, r) ∈ (tickECS c6always [] 0 true).graph.edges ∧
      (r, (GEntry.mk 1 c6read).task) ∈ (tickECS c6always [] 0 true).graph.edges) :=
  ⟨by decide, by decide,
   claim6_physics_stage_order c6always [] 0 ⟨0, c6write⟩ ⟨1, c6read⟩ (by decide) (by decide)⟩

end RavEngine
